import Mathlib

/-!
Verification of the lazy sequence-combinator library (`src/seq.py`: classes
`Op` and `Seq`) and its consumer (`src/day1.py`).

The Python code is shallowly embedded as follows.

* A Python iteration source (`self._iterable`) is `PyIterable α`: either a
  repeatable container (list/tuple/range — iterating it again restarts), or a
  single-pass iterator holding the elements it has yet to yield.  A fully
  exhausted single-pass iterator silently yields nothing, as in Python.
* `Seq` is the wrapper class: a structure holding one `PyIterable`.
* Each transformation method returns the pair `(resulting Seq, n)` where `n`
  is the number of elements the call pulls from the underlying source *at
  call time*.  This models the spec's side-effecting-counter laziness test:
  a Python expression such as `map(f, it)`, `filter(p, it)`,
  `itertools.islice/chain/starmap/groupby/cycle/dropwhile/takewhile`, a
  generator call, `zip(a, b)` or `enumerate(it)` builds a lazy object and
  pulls nothing (`n = 0`), whereas `sorted(it)`, `list(it)` and the
  argument-unpacking `f(*it)` iterate `it` to completion at call time
  (`n` = the number of remaining elements).
* Python truthiness (used by `filter` and by `any`/`all` on raw elements) is
  folded into `Bool`-valued predicates; for `first_not_none`, whose behaviour
  hinges on the truthiness of actual Python values, a small value universe
  `PyVal` with its `truthy` function is used.
* Exceptions (`TypeError` from `functools.reduce` on an empty iterable,
  `ValueError` from `Op.compare_and_choose` — the spec calls these
  `EmptySequence` and `InvalidArgument`) are modelled with `Option`/`Except`.
* Python compares comparator *functions* by identity
  (`compare == operator.le`), so comparators passed to
  `Op.compare_and_choose` are embedded as the enumeration `CmpOp` whose
  `eval` gives each operator's meaning on an ordered type.
* The short-circuiting terminals `first`/`any`/`all` are additionally
  modelled over a possibly infinite source (a stream `Nat → α`) with
  explicit fuel, counting the elements they pull.
-/

namespace SeqModel

/-- A Python iteration source: `pyseq xs` is a repeatable container holding
`xs` (re-iterating restarts from the first element); `pyiter xs` is a
single-pass iterator whose remaining elements are `xs`. -/
inductive PyIterable (α : Type) where
  | pyseq : List α → PyIterable α
  | pyiter : List α → PyIterable α
deriving DecidableEq

/-- The elements a full iteration of the source yields now. -/
def PyIterable.elems : PyIterable α → List α
  | .pyseq xs => xs
  | .pyiter xs => xs

/-- The state of the source after a full iteration: a repeatable container is
unchanged, a single-pass iterator is exhausted and silently yields nothing
afterwards. -/
def PyIterable.exhaust : PyIterable α → PyIterable α
  | .pyseq xs => .pyseq xs
  | .pyiter _ => .pyiter []

/-- `class Seq`: a wrapper holding one iteration source (`self._iterable`). -/
structure Seq (α : Type) where
  iterable : PyIterable α
deriving DecidableEq

/-- The elements iterating the `Seq` yields now (`iter(self._iterable)` run
to completion). -/
def Seq.elems (s : Seq α) : List α :=
  s.iterable.elems

/-- A full iteration of a `Seq` (e.g. a `for` loop or `list(...)`): the
yielded elements together with the `Seq` in its post-iteration state. -/
def Seq.iterate (s : Seq α) : List α × Seq α :=
  (s.iterable.elems, ⟨s.iterable.exhaust⟩)

/-- The elements one full iteration yields. -/
def Seq.yields (s : Seq α) : List α :=
  (Seq.iterate s).1

/-- The `Seq` after one full iteration. -/
def Seq.iterState (s : Seq α) : Seq α :=
  (Seq.iterate s).2

/-- The universe of Python values used where truthiness matters:
`None`, integers, strings and booleans. -/
inductive PyVal where
  | none
  | int (n : Int)
  | str (s : String)
  | bool (b : Bool)
deriving DecidableEq

/-- Python truthiness: `None`, `0`, `''` and `False` are falsy. -/
def PyVal.truthy : PyVal → Bool
  | .none => false
  | .int n => n != 0
  | .str s => s != ""
  | .bool b => b

/-- The Python exceptions the embedded code can raise.  `valueError` is
`ValueError("unexpected operator")` from `Op.compare_and_choose` (the spec's
`InvalidArgument`); `typeError` is `functools.reduce` on an empty iterable
with no initial value (the spec's `EmptySequence`). -/
inductive PyError where
  | valueError
  | typeError
deriving DecidableEq

/-- `Op.identity`: the identity function. -/
def Op.identity (obj : α) : α :=
  obj

/-- `Op.swap(function)`: evaluates `function` with its two arguments
swapped (`inner(lhs, rhs) = function(rhs, lhs)`). -/
def Op.swap (function : α → β → γ) : β → α → γ :=
  fun lhs rhs => function rhs lhs

/-- `Op.lhs`: a binary operator returning its first argument. -/
def Op.lhs (lhs : α) (_rhs : α) : α :=
  lhs

/-- `Op.rhs`: a binary operator returning its second argument. -/
def Op.rhs (_lhs : α) (rhs : α) : α :=
  rhs

/-- A comparator function passed to `Op.compare_and_choose`.  Python
dispatches on the comparator's identity (`compare == operator.le`), so the
comparators are embedded as an enumeration: `operator.le`, `operator.ge`,
`operator.lt`, `operator.gt`. -/
inductive CmpOp where
  | le
  | ge
  | lt
  | gt
deriving DecidableEq

/-- What each comparator computes when called on two ordered values. -/
def CmpOp.eval [LinearOrder γ] : CmpOp → γ → γ → Bool
  | .le => fun a b => decide (a ≤ b)
  | .ge => fun a b => decide (b ≤ a)
  | .lt => fun a b => decide (a < b)
  | .gt => fun a b => decide (b < a)

/-- What `Op.compare_and_choose` returns: the Python builtin `min`, the
Python builtin `max`, or the locally defined closure `inner`. -/
inductive Chooser (α : Type) where
  | native_min
  | native_max
  | inner (function : α → α → α)

/-- Running a chooser on two arguments.  Python's builtin `min(a, b)` keeps
the first argument on ties (it replaces the running value only on a strictly
smaller item); builtin `max(a, b)` likewise keeps the first argument on
ties. -/
def Chooser.run [LinearOrder α] : Chooser α → α → α → α
  | .native_min => fun a b => if b < a then b else a
  | .native_max => fun a b => if a < b then b else a
  | .inner f => f

/-- `Op.compare_and_choose(compare, key)`: with `key is None`, dispatches on
the comparator's identity — `operator.le` gives builtin `min`, `operator.ge`
gives builtin `max`, anything else raises `ValueError`; with a key it returns
the closure `inner(lhs, rhs) = lhs if compare(key(lhs), key(rhs)) else
rhs`. -/
def Op.compare_and_choose [LinearOrder γ] (compare : CmpOp) (key : Option (α → γ)) :
    Except PyError (Chooser α) :=
  match key with
  | none =>
    match compare with
    | .le => .ok .native_min
    | .ge => .ok .native_max
    | _ => .error .valueError
  | some k => .ok (.inner (fun lhs rhs => if compare.eval (k lhs) (k rhs) then lhs else rhs))

/-- `self._iterable_or_filter(predicate)`: the source elements, filtered when
a predicate is given (Python's `filter` keeps the elements on which the
predicate's result is truthy; the embedded predicate already returns that
truth value). -/
def Seq.iterable_or_filter (predicate : Option (α → Bool)) (s : Seq α) : List α :=
  match predicate with
  | none => s.elems
  | some p => s.elems.filter p

/-- `next(it)` for the first element, `next(it, default)` with a default: the
head of what the iterator yields. -/
def pyNextOrDefault (xs : List α) (default : α) : α :=
  match xs with
  | [] => default
  | x :: _ => x

/-- `Seq.first_or_default(predicate, default)`:
`next(iter(self._iterable_or_filter(predicate)), default)`. -/
def Seq.first_or_default (predicate : Option (α → Bool)) (default : α) (s : Seq α) : α :=
  pyNextOrDefault (Seq.iterable_or_filter predicate s) default

/-- `Seq.first_not_none()`: `self.first_or_default(Op.identity)` — the
predicate passed to Python's `filter` is `Op.identity`, whose result is
tested for *truthiness*, and `default` is left at `None`. -/
def Seq.first_not_none (s : Seq PyVal) : PyVal :=
  Seq.first_or_default (some (fun item => (Op.identity item).truthy)) PyVal.none s

/-- The loop of `functools.reduce(function, it)` after the first element has
been taken as the initial value: `for element in it: value =
function(value, element)`. -/
def reduceLoop (function : α → β → α) (value : α) : List β → α
  | [] => value
  | element :: rest => reduceLoop function (function value element) rest

/-- `functools.reduce(function, iterable)` with no initial value: raises
`TypeError` on an empty iterable (modelled as `none`), otherwise starts from
the first element. -/
def pyReduce (function : α → α → α) : List α → Option α
  | [] => none
  | x :: xs => some (reduceLoop function x xs)

/-- `Seq.fold(function)`: `functools.reduce(function, self._iterable)`. -/
def Seq.fold (function : α → α → α) (s : Seq α) : Option α :=
  pyReduce function s.elems

/-- `Seq.fold_left(start, function)`:
`functools.reduce(function, self._iterable, start)`. -/
def Seq.fold_left (start : β) (function : β → α → β) (s : Seq α) : β :=
  reduceLoop function start s.elems

/-- `Seq.fold_right(start, function)`:
`functools.reduce(Op.swap(function), reversed(list(self._iterable)), start)`. -/
def Seq.fold_right (start : β) (function : α → β → β) (s : Seq α) : β :=
  reduceLoop (Op.swap function) start s.elems.reverse

/-- `Seq.min(key)` with a key function (the `key is None` branch, Python's
builtin `min(self._iterable)`, is `Seq.min_nokey`):
`functools.reduce(Op.compare_and_choose(operator.le, key), self._iterable)`.
The wildcard branches are unreachable: with a key,
`Op.compare_and_choose` always returns its `inner` closure. -/
def Seq.min [LinearOrder γ] (key : α → γ) (s : Seq α) : Option α :=
  match Op.compare_and_choose CmpOp.le (some key) with
  | .ok (.inner f) => Seq.fold f s
  | _ => none

/-- `Seq.max(key)` with a key function:
`functools.reduce(Op.compare_and_choose(operator.ge, key), self._iterable)`. -/
def Seq.max [LinearOrder γ] (key : α → γ) (s : Seq α) : Option α :=
  match Op.compare_and_choose CmpOp.ge (some key) with
  | .ok (.inner f) => Seq.fold f s
  | _ => none

/-- `Seq.min()` with `key is None`: Python's builtin `min(self._iterable)`,
which raises `ValueError` on an empty sequence (modelled as `none`) and keeps
the first of equal elements. -/
def Seq.min_nokey [LinearOrder α] (s : Seq α) : Option α :=
  pyReduce (fun value item => if item < value then item else value) s.elems

/-- `Seq.max()` with `key is None`: Python's builtin `max(self._iterable)`. -/
def Seq.max_nokey [LinearOrder α] (s : Seq α) : Option α :=
  pyReduce (fun value item => if value < item then item else value) s.elems

/-- `Seq.tolist()`: `list(self._iterable)`. -/
def Seq.tolist (s : Seq α) : List α :=
  s.elems

/-! ### Construction forms and transformations, with call-time pull counts

Each of the following returns the constructed value together with the number
of elements the call pulls from the underlying source at call time (see the
header comment). -/

/-- `Seq.from_items(*args)`: wraps the already-evaluated argument tuple — a
repeatable container; nothing is pulled from anywhere at call time. -/
def Seq.from_items (args : List α) : Seq α × Nat :=
  (⟨.pyseq args⟩, 0)

/-- `Seq.chain(*args)`: `Seq(itertools.chain(*args))` — `itertools.chain`
holds its sub-sequences lazily, pulling nothing at call time. -/
def Seq.chain (args : List (Seq α)) : Seq α × Nat :=
  (⟨.pyiter (args.map Seq.elems).flatten⟩, 0)

/-- `Seq.prepend(item, sequence)`: `Seq(itertools.chain([item], sequence))`. -/
def Seq.prepend (item : α) (sequence : Seq α) : Seq α × Nat :=
  (⟨.pyiter (item :: sequence.elems)⟩, 0)

/-- `Seq.append(item, sequence)`: `Seq(itertools.chain(sequence, [item]))`. -/
def Seq.append (item : α) (sequence : Seq α) : Seq α × Nat :=
  (⟨.pyiter (sequence.elems ++ [item])⟩, 0)

/-- `Seq.map(function)`: `Seq(map(function, self._iterable))` — a lazy map
object, no pull at call time. -/
def Seq.map (function : α → β) (s : Seq α) : Seq β × Nat :=
  (⟨.pyiter (s.elems.map function)⟩, 0)

/-- `Seq.map_tuple(f1, f2)` (the two-function instance):
`Seq(map(lambda item: (f1(item), f2(item)), self._iterable))`. -/
def Seq.map_tuple (f1 f2 : α → β) (s : Seq α) : Seq (β × β) × Nat :=
  (⟨.pyiter (s.elems.map fun item => (f1 item, f2 item))⟩, 0)

/-- `Seq.map_star(function)` over pair elements:
`Seq(itertools.starmap(function, self._iterable))`. -/
def Seq.map_star (function : α → β → γ) (s : Seq (α × β)) : Seq γ × Nat :=
  (⟨.pyiter (s.elems.map fun item => function item.1 item.2)⟩, 0)

/-- `Seq.map_many(function)`:
`Seq(itertools.chain.from_iterable(map(function, self._iterable)))`. -/
def Seq.map_many (function : α → List β) (s : Seq α) : Seq β × Nat :=
  (⟨.pyiter (s.elems.map function).flatten⟩, 0)

/-- `Seq.filter(predicate)`: `Seq(filter(predicate, self._iterable))`. -/
def Seq.filter (predicate : α → Bool) (s : Seq α) : Seq α × Nat :=
  (⟨.pyiter (s.elems.filter predicate)⟩, 0)

/-- `Seq.filter_not(predicate)`:
`Seq(itertools.filterfalse(predicate, self._iterable))`. -/
def Seq.filter_not (predicate : α → Bool) (s : Seq α) : Seq α × Nat :=
  (⟨.pyiter (s.elems.filter fun item => !predicate item)⟩, 0)

/-- `Seq.slice(start, stop)`:
`Seq(itertools.islice(self._iterable, start, stop))`, yielding the elements
with indices in `[start, stop)`. -/
def Seq.slice (start stop : Nat) (s : Seq α) : Seq α × Nat :=
  (⟨.pyiter ((s.elems.take stop).drop start)⟩, 0)

/-- `Seq.drop(count)`: `Seq(itertools.islice(self._iterable, count, None))`. -/
def Seq.drop (count : Nat) (s : Seq α) : Seq α × Nat :=
  (⟨.pyiter (s.elems.drop count)⟩, 0)

/-- `Seq.take(count)`: `Seq(itertools.islice(self._iterable, count))`. -/
def Seq.take (count : Nat) (s : Seq α) : Seq α × Nat :=
  (⟨.pyiter (s.elems.take count)⟩, 0)

/-- `Seq.drop_while(function)`:
`Seq(itertools.dropwhile(function, self._iterable))`. -/
def Seq.drop_while (function : α → Bool) (s : Seq α) : Seq α × Nat :=
  (⟨.pyiter (s.elems.dropWhile function)⟩, 0)

/-- `Seq.take_while(function)`:
`Seq(itertools.takewhile(function, self._iterable))`. -/
def Seq.take_while (function : α → Bool) (s : Seq α) : Seq α × Nat :=
  (⟨.pyiter (s.elems.takeWhile function)⟩, 0)

/-- The runs of consecutive elements with equal keys, as
`itertools.groupby(iterable, key)` yields them: `(key value, group)` pairs. -/
def runGroups [DecidableEq β] (key : α → β) : List α → List (β × List α)
  | [] => []
  | x :: xs =>
    match runGroups key xs with
    | [] => [(key x, [x])]
    | (ky, g) :: rest =>
      if key x = ky then (key x, x :: g) :: rest else (key x, [x]) :: (ky, g) :: rest

/-- `Seq.group_by(key)` (with `function is None`):
`Seq(itertools.starmap(select_items, itertools.groupby(self._iterable, key)))`
where `select_items(key, items) = (key, Seq(items))`. -/
def Seq.group_by [DecidableEq β] (key : α → β) (s : Seq α) : Seq (β × Seq α) × Nat :=
  (⟨.pyiter ((runGroups key s.elems).map fun g => (g.1, ⟨.pyiter g.2⟩))⟩, 0)

/-- `Seq.zip(other)` (with `function is None`):
`Seq(zip(self._iterable, other))`. -/
def Seq.zip (other : List β) (s : Seq α) : Seq (α × β) × Nat :=
  (⟨.pyiter (s.elems.zip other)⟩, 0)

/-- `Seq.zip_from_each()` (with `function is None`) over pair elements:
`Seq(zip(*self._iterable))`.  The argument unpacking `*self._iterable`
iterates the source to completion *at call time*; `zip` of the unpacked
pairs transposes them (each output tuple is modelled as a Lean list). -/
def Seq.zip_from_each (s : Seq (α × α)) : Seq (List α) × Nat :=
  (⟨.pyiter (if s.elems.isEmpty then [] else
      [s.elems.map Prod.fst, s.elems.map Prod.snd])⟩, s.elems.length)

/-- Python's `sorted(iterable, key=key, reverse=reverse)`, as a stable
insertion sort: an element is inserted after every earlier element whose key
does not compare after its own. -/
def pySortInsert [LinearOrder γ] (rev : Bool) (key : α → γ) (x : α) : List α → List α
  | [] => [x]
  | y :: ys =>
    if (if rev then key x ≤ key y else key y ≤ key x) then y :: pySortInsert rev key x ys
    else x :: y :: ys

/-- `sorted(iterable, key=key, reverse=reverse)`: builds the fully
materialized sorted list, consuming the iterable at call time. -/
def pySorted [LinearOrder γ] (rev : Bool) (key : α → γ) : List α → List α
  | [] => []
  | x :: xs => pySortInsert rev key x (pySorted rev key xs)

/-- `Seq.sort(key, reverse)`:
`Seq(sorted(self._iterable, key=key, reverse=reverse))` — `sorted` returns a
plain list (a repeatable container) and iterates the source to completion at
call time.  `key=None` (comparing elements directly) is `key := Op.identity`. -/
def Seq.sort [LinearOrder γ] (key : α → γ) (rev : Bool) (s : Seq α) : Seq α × Nat :=
  (⟨.pyseq (pySorted rev key s.elems)⟩, s.elems.length)

/-- The generator inside `Seq.distinct`: yields each element not in the set
of already-seen items, first occurrences kept in order. -/
def distinctLoop [DecidableEq α] (items : List α) : List α → List α
  | [] => []
  | item :: rest =>
    if item ∈ items then distinctLoop items rest
    else item :: distinctLoop (item :: items) rest

/-- `Seq.distinct()`: `Seq(inner(self._iterable))` — calling the generator
function builds a suspended generator, pulling nothing at call time. -/
def Seq.distinct [DecidableEq α] (s : Seq α) : Seq α × Nat :=
  (⟨.pyiter (distinctLoop [] s.elems)⟩, 0)

/-- `Seq.reverse()`: `Seq(reversed(list(self._iterable)))` — `list(...)`
iterates the source to completion at call time, and `reversed` of that list
is a single-pass list-reverse iterator. -/
def Seq.reverse (s : Seq α) : Seq α × Nat :=
  (⟨.pyiter s.elems.reverse⟩, s.elems.length)

/-- `Seq.concat(other)`: `Seq(itertools.chain(self._iterable, other))`. -/
def Seq.concat (other : List α) (s : Seq α) : Seq α × Nat :=
  (⟨.pyiter (s.elems ++ other)⟩, 0)

/-- `Seq.enumerate(start)`: `Seq(enumerate(self._iterable, start=start))`. -/
def Seq.enumerate (start : Nat) (s : Seq α) : Seq (Nat × α) × Nat :=
  (⟨.pyiter (s.elems.enumFrom start)⟩, 0)

/-- `Seq.flatten()`:
`Seq(itertools.chain.from_iterable(self._iterable))`. -/
def Seq.flatten (s : Seq (List α)) : Seq α × Nat :=
  (⟨.pyiter s.elems.flatten⟩, 0)

/-- The bare `itertools.cycle` iterator: *not* a `Seq`.  It saves the
source's elements as it first yields them and then repeats them forever. -/
structure CycleIter (α : Type) where
  saved : List α

/-- The `i`-th element the cycle iterator yields (`none` once a cycle over an
empty source stops yielding). -/
def CycleIter.get (c : CycleIter α) (i : Nat) : Option α :=
  c.saved.get? (i % c.saved.length)

/-- `Seq.cycle()`: `return itertools.cycle(self._iterable)` — the raw
`itertools.cycle` iterator is returned without a `Seq` wrapper, and nothing
is pulled at call time. -/
def Seq.cycle (s : Seq α) : CycleIter α × Nat :=
  (⟨s.elems⟩, 0)

/-! ### Short-circuiting terminals over a possibly infinite source

The source is a stream `s : Nat → α` (element `i` is the `i`-th value an
infinite iterator yields).  Each terminal is run with explicit fuel; the
result is `some (value, pulls)` when the terminal returns after pulling
`pulls` elements, and `none` when the fuel is exhausted first. -/

/-- `Seq.any(predicate)` on an infinite source: Python's builtin
`any(map(predicate, it))` pulls elements one at a time and returns `True` at
the first element whose mapped value is truthy. -/
def Seq.anyPulls (predicate : α → Bool) (s : Nat → α) : Nat → Option (Bool × Nat)
  | 0 => none
  | fuel + 1 =>
    if predicate (s 0) then some (true, 1)
    else
      match Seq.anyPulls predicate (fun i => s (i + 1)) fuel with
      | some (value, pulls) => some (value, pulls + 1)
      | none => none

/-- `Seq.all(predicate)` on an infinite source: Python's builtin
`all(map(predicate, it))` pulls elements one at a time and returns `False` at
the first element whose mapped value is falsy. -/
def Seq.allPulls (predicate : α → Bool) (s : Nat → α) : Nat → Option (Bool × Nat)
  | 0 => none
  | fuel + 1 =>
    if predicate (s 0) then
      match Seq.allPulls predicate (fun i => s (i + 1)) fuel with
      | some (value, pulls) => some (value, pulls + 1)
      | none => none
    else some (false, 1)

/-- `Seq.first()` (with `predicate is None`) on an infinite source:
`next(iter(self._iterable))` pulls exactly one element and returns it. -/
def Seq.firstPulls (s : Nat → α) : α × Nat :=
  (s 0, 1)

/-! ### The consumer `src/day1.py` -/

/-- `ORIENTATIONS`: the four unit headings, clockwise from north. -/
def ORIENTATIONS : List (Int × Int) :=
  [(0, 1), (1, 0), (0, -1), (-1, 0)]

/-- `move(state, instruction)` from `day1`: rotate the orientation a quarter
turn (left for `'L'`, i.e. three clockwise steps, otherwise one clockwise
step) and advance the position by `distance` along the new orientation.
`ORIENTATIONS[i]` is total here since the index is reduced mod 4 (the
`getD` default is unreachable). -/
def move (state : (Int × Int) × (Int × Int)) (instruction : Char × Int) :
    (Int × Int) × (Int × Int) :=
  let position := state.1
  let orientation := state.2
  let direction := instruction.1
  let distance := instruction.2
  let rotation : Nat := if direction = 'L' then 3 else 1
  let new_orientation :=
    ORIENTATIONS.getD ((ORIENTATIONS.indexOf orientation + rotation) % 4) (0, 0)
  let new_position :=
    (position.1 + new_orientation.1 * distance, position.2 + new_orientation.2 * distance)
  (new_position, new_orientation)

/-- `data.split(', ')` on a list of characters: split on the two-character
separator `", "`. -/
def splitCommaSpace (acc : List Char) : List Char → List (List Char)
  | [] => [acc.reverse]
  | ',' :: ' ' :: rest => acc.reverse :: splitCommaSpace [] rest
  | c :: rest => splitCommaSpace (c :: acc) rest

/-- Python `int(...)` on a decimal numeral (the digits after the turn
character; the instructions carry non-negative distances). -/
def parseDecimal (acc : Nat) : List Char → Nat
  | [] => acc
  | c :: rest => parseDecimal (acc * 10 + (c.toNat - '0'.toNat)) rest

/-- `lambda arg: (arg[0], int(arg[1:]))` from `day1`: a token's turn
character and distance.  (`arg[0]` on the empty token is an `IndexError` in
Python; the default `' '` is unreachable on well-formed data.) -/
def parseInstruction (arg : List Char) : Char × Int :=
  (arg.headD ' ', (parseDecimal 0 (arg.drop 1) : Int))

/-- `instructions` from `day1`:
`Seq(data.split(', ')).map(lambda arg: (arg[0], int(arg[1:]))).tolist()`. -/
def day1_instructions (data : String) : List (Char × Int) :=
  Seq.tolist (Seq.map parseInstruction ⟨.pyseq (splitCommaSpace [] data.toList)⟩).1

/-- `state` from `day1`:
`Seq(instructions).fold_left(initial_state, move)` with
`initial_state = ((0, 0), (0, 1))`. -/
def day1_state (data : String) : (Int × Int) × (Int × Int) :=
  Seq.fold_left ((0, 0), (0, 1)) move ⟨.pyseq (day1_instructions data)⟩

/-- The distance `day1` prints: `abs(position[0]) + abs(position[1])` of the
final position. -/
def day1_distance (data : String) : Int :=
  |((day1_state data).1).1| + |((day1_state data).1).2|

/-- The specification's conceptual right-to-left fold:
`f(x1, f(x2, ... f(xn, s)))`, and `s` itself for an empty source.  Stated
from the spec's words, to be compared with `Seq.fold_right` as implemented. -/
def foldRightSpec (start : β) (function : α → β → β) : List α → β
  | [] => start
  | x :: xs => function x (foldRightSpec start function xs)

/-! ## Theorems -/

/-- The `functools.reduce` loop is a left fold. -/
theorem reduceLoop_eq_foldl (function : α → β → α) :
    ∀ (xs : List β) (value : α), reduceLoop function value xs = xs.foldl function value := by
  intro xs
  induction xs with
  | nil => intro value; rfl
  | cons element rest ih => intro value; simp [reduceLoop, ih]

/-- The spec's conceptual right-to-left fold is `List.foldr`. -/
theorem foldRightSpec_eq_foldr (start : β) (function : α → β → β) :
    ∀ xs : List α, foldRightSpec start function xs = xs.foldr function start := by
  intro xs
  induction xs with
  | nil => rfl
  | cons x rest ih => simp [foldRightSpec, ih]

/-- Claim C4: `fold(f)` on an empty source fails (the `TypeError` that
`functools.reduce` raises on an empty iterable with no initial value, the
spec's `EmptySequence`, modelled as `none`), for every reducer `f`; on a
non-empty source it returns the seedless left-to-right reduction of the
elements. -/
theorem C4_fold_empty_raises {α : Type} (function : α → α → α) (x : α) (xs : List α) :
    Seq.fold function ⟨.pyiter ([] : List α)⟩ = none ∧
    Seq.fold function ⟨.pyseq ([] : List α)⟩ = none ∧
    Seq.fold function ⟨.pyiter (x :: xs)⟩ = some (xs.foldl function x) ∧
    Seq.fold function ⟨.pyseq (x :: xs)⟩ = some (xs.foldl function x) := by
  refine ⟨rfl, rfl, ?_, ?_⟩ <;>
    simp [Seq.fold, pyReduce, Seq.elems, PyIterable.elems, reduceLoop_eq_foldl]

/-- Claim C5: `fold_right(s, f)` — materialize, reverse, fold with the
reducer's arguments swapped — equals the conceptual right-to-left fold
`f(x1, f(x2, ... f(xn, s)))` on every finite source, and returns the seed on
an empty source. -/
theorem C5_fold_right_refines {α β : Type} (start : β) (function : α → β → β)
    (src : PyIterable α) :
    Seq.fold_right start function ⟨src⟩ = foldRightSpec start function src.elems ∧
    Seq.fold_right start function ⟨.pyiter ([] : List α)⟩ = start := by
  constructor
  · simp only [Seq.fold_right, Seq.elems, reduceLoop_eq_foldl, List.foldl_reverse,
      foldRightSpec_eq_foldr]
    simp [Op.swap]
  · rfl

/-- Claim C9 (end-to-end scenario of `day1`): parsing and folding the
instruction string `"R2, L3"` from position `(0, 0)` and heading north
`(0, 1)` yields final position `(2, 3)` and heading `(0, 1)`, and the
reported Manhattan distance is `5`. -/
theorem C9_day1_end_to_end :
    day1_state "R2, L3" = ((2, 3), (0, 1)) ∧ day1_distance "R2, L3" = 5 := by
  constructor <;> rfl

/-- Claim C3 (code bug): `first_not_none()` filters with `Op.identity`, so
Python's `filter` keeps *truthy* elements, not non-`None` ones.  On
`[0, 5]` it returns `5` (the claim and the method's own docstring demand the
first non-`None` element, `0`); on `[0]` it returns `None` (the claim
demands `0`); falsy values `None`, `''`, `False` and `0` are all skipped. -/
theorem C3_first_not_none_eval :
    Seq.first_not_none ⟨.pyiter [PyVal.int 0, PyVal.int 5]⟩ = PyVal.int 5 ∧
    Seq.first_not_none ⟨.pyiter [PyVal.int 0]⟩ = PyVal.none ∧
    Seq.first_not_none ⟨.pyiter [PyVal.none, PyVal.str "", PyVal.bool false, PyVal.int 7]⟩ =
      PyVal.int 7 := by
  refine ⟨?_, ?_, ?_⟩ <;> rfl

/-- Claim C2 (code bug): `cycle()` returns the bare `itertools.cycle`
iterator — a `CycleIter`, not a `Seq` — pulling nothing at call time; the
iterator itself does repeat the source's elements indefinitely, shown here
on the source `Seq.from_items(1, 2)`: the stream of yielded values has
period 2 and starts `1, 2`. -/
theorem C2_cycle_eval :
    Seq.cycle (⟨.pyseq [1, 2]⟩ : Seq Nat) = (CycleIter.mk [1, 2], 0) ∧
    (∀ i, CycleIter.get (Seq.cycle (⟨.pyseq [1, 2]⟩ : Seq Nat)).1 (i + 2) =
      CycleIter.get (Seq.cycle (⟨.pyseq [1, 2]⟩ : Seq Nat)).1 i) ∧
    CycleIter.get (Seq.cycle (⟨.pyseq [1, 2]⟩ : Seq Nat)).1 0 = some 1 ∧
    CycleIter.get (Seq.cycle (⟨.pyseq [1, 2]⟩ : Seq Nat)).1 1 = some 2 := by
  refine ⟨rfl, ?_, rfl, rfl⟩
  intro i
  show ([1, 2] : List Nat).get? ((i + 2) % 2) = ([1, 2] : List Nat).get? (i % 2)
  rw [Nat.add_mod_right]

/-- Claim C10: the `Seq` returned by `reverse()` wraps a single-pass
list-reverse iterator, whatever the source was: its first full iteration
yields the source's elements in reverse order and every later iteration
yields nothing; the `Seq` returned by `sort()` wraps a materialized list and
yields the sorted elements on every iteration. -/
theorem C10_reverse_single_pass {α : Type} [LinearOrder α] (src : PyIterable α) :
    Seq.yields (Seq.reverse ⟨src⟩).1 = src.elems.reverse ∧
    (∀ n, Seq.yields (Seq.iterState^[n + 1] (Seq.reverse ⟨src⟩).1) = []) ∧
    (∀ n, Seq.yields (Seq.iterState^[n] (Seq.sort Op.identity false ⟨src⟩).1) =
      pySorted false Op.identity src.elems) := by
  refine ⟨rfl, ?_, ?_⟩
  · intro n
    rw [Function.iterate_succ_apply]
    have hstep : Seq.iterState (Seq.reverse (⟨src⟩ : Seq α)).1 = ⟨.pyiter []⟩ := rfl
    have hfix : Seq.iterState (⟨.pyiter []⟩ : Seq α) = ⟨.pyiter []⟩ := rfl
    rw [hstep, Function.iterate_fixed hfix]
    rfl
  · intro n
    have hfix : Seq.iterState (Seq.sort Op.identity false (⟨src⟩ : Seq α)).1 =
        (Seq.sort Op.identity false (⟨src⟩ : Seq α)).1 := rfl
    rw [Function.iterate_fixed hfix]
    rfl

/-- Claim C1, counterexample: `reverse()`, `sort()` and `zip_from_each()`
pull from the source at call time — on a two-element single-pass source each
pulls a non-zero number of elements before any terminal is invoked. -/
theorem C1_laziness_cex :
    (Seq.reverse (⟨.pyiter [1, 2]⟩ : Seq Nat)).2 ≠ 0 ∧
    (Seq.sort Op.identity false (⟨.pyiter [1, 2]⟩ : Seq Nat)).2 ≠ 0 ∧
    (Seq.zip_from_each (⟨.pyiter [(1, 2), (3, 4)]⟩ : Seq (Nat × Nat))).2 ≠ 0 := by
  refine ⟨?_, ?_, ?_⟩ <;> decide

/-- Claim C1, amended: construction forms and every transformation other
than `sort()`, `reverse()` and `zip_from_each()` pull no element from the
underlying source at call time; `sort()` and `reverse()` (which materialize)
and `zip_from_each()` (whose argument unpacking `zip(*...)` iterates the
source) pull every element of the source at call time. -/
theorem C1_laziness_amended {α β γ : Type} [LinearOrder γ] [DecidableEq α]
    (args : List α) (seqs : List (Seq α)) (a : α) (s : Seq α) (t : Seq (α × α))
    (u : Seq (List α)) (f f' : α → β) (g2 : α → α → β) (g : α → List β)
    (p : α → Bool) (n k : Nat) (kf : α → γ) (other : List β) (oth : List α)
    (rev : Bool) :
    (Seq.from_items args).2 = 0 ∧
    (Seq.chain seqs).2 = 0 ∧
    (Seq.prepend a s).2 = 0 ∧
    (Seq.append a s).2 = 0 ∧
    (Seq.map f s).2 = 0 ∧
    (Seq.map_tuple f f' s).2 = 0 ∧
    (Seq.map_star g2 t).2 = 0 ∧
    (Seq.map_many g s).2 = 0 ∧
    (Seq.filter p s).2 = 0 ∧
    (Seq.filter_not p s).2 = 0 ∧
    (Seq.slice n k s).2 = 0 ∧
    (Seq.drop n s).2 = 0 ∧
    (Seq.take n s).2 = 0 ∧
    (Seq.drop_while p s).2 = 0 ∧
    (Seq.take_while p s).2 = 0 ∧
    (Seq.group_by kf s).2 = 0 ∧
    (Seq.zip other s).2 = 0 ∧
    (Seq.distinct s).2 = 0 ∧
    (Seq.concat oth s).2 = 0 ∧
    (Seq.enumerate n s).2 = 0 ∧
    (Seq.flatten u).2 = 0 ∧
    (Seq.cycle s).2 = 0 ∧
    (Seq.sort kf rev s).2 = s.elems.length ∧
    (Seq.reverse s).2 = s.elems.length ∧
    (Seq.zip_from_each t).2 = t.elems.length :=
  ⟨rfl, rfl, rfl, rfl, rfl, rfl, rfl, rfl, rfl, rfl, rfl, rfl, rfl, rfl, rfl,
    rfl, rfl, rfl, rfl, rfl, rfl, rfl, rfl, rfl, rfl⟩

/-- Claim C7: with no key, `compare_and_choose` returns the language's
native minimum selection for the "not greater than" comparator
(`operator.le`) and the native maximum selection for "not less than"
(`operator.ge`) — the returned choosers really compute `min` and `max` — and
raises `ValueError` (the spec's `InvalidArgument`) for every other
comparator; with a key it raises nothing and returns the reducer
`(a, b) -> a if compare(key(a), key(b)) else b`. -/
theorem C7_compare_and_choose_dispatch {α γ : Type} [LinearOrder γ] :
    Op.compare_and_choose CmpOp.le (none : Option (α → γ)) = .ok .native_min ∧
    Op.compare_and_choose CmpOp.ge (none : Option (α → γ)) = .ok .native_max ∧
    Op.compare_and_choose CmpOp.lt (none : Option (α → γ)) = .error .valueError ∧
    Op.compare_and_choose CmpOp.gt (none : Option (α → γ)) = .error .valueError ∧
    (∀ a b : γ, Chooser.run .native_min a b = min a b) ∧
    (∀ a b : γ, Chooser.run .native_max a b = max a b) ∧
    (∀ (compare : CmpOp) (k : α → γ),
      Op.compare_and_choose compare (some k) =
        .ok (.inner fun lhs rhs => if compare.eval (k lhs) (k rhs) then lhs else rhs)) := by
  refine ⟨rfl, rfl, rfl, rfl, ?_, ?_, fun _ _ => rfl⟩
  · intro a b
    simp only [Chooser.run]
    rcases le_or_lt a b with h | h
    · rw [if_neg (not_lt.mpr h), min_def, if_pos h]
    · rw [if_pos h, min_def, if_neg (not_le.mpr h)]
  · intro a b
    simp only [Chooser.run]
    rcases lt_trichotomy a b with h | h | h
    · rw [if_pos h, max_def, if_pos h.le]
    · subst h
      simp [max_def]
    · rw [if_neg (not_lt.mpr h.le), max_def, if_neg (not_le.mpr h)]

/-- The left reduction with the reducer `lhs if c(key(lhs), key(rhs)) else
rhs`, for a total transitive comparison `c`, returns the first-encountered
element whose key is best: the result sits at an index `i`, its key compares
against every element's key, and every strictly earlier element's key
compares back `false` (so the earliest element wins every tie). -/
theorem reduceChoose_first {α γ : Type} (c : γ → γ → Bool)
    (htot : ∀ a b, c a b = true ∨ c b a = true)
    (htrans : ∀ a b d, c a b = true → c b d = true → c a d = true)
    (key : α → γ) :
    ∀ (xs : List α) (x : α), ∃ (i : Nat) (m : α),
      (x :: xs)[i]? = some m ∧
      reduceLoop (fun lhs rhs => if c (key lhs) (key rhs) then lhs else rhs) x xs = m ∧
      (∀ (j : Nat) (y : α), (x :: xs)[j]? = some y → c (key m) (key y) = true) ∧
      (∀ (j : Nat) (y : α), j < i → (x :: xs)[j]? = some y → c (key y) (key m) = false) := by
  intro xs
  induction xs with
  | nil =>
    intro x
    refine ⟨0, x, rfl, rfl, ?_, ?_⟩
    · intro j y hj
      rcases j with _ | j
      · simp only [List.getElem?_cons_zero, Option.some.injEq] at hj
        subst hj
        rcases htot (key x) (key x) with h | h <;> exact h
      · simp at hj
    · intro j y hlt _
      exact absurd hlt (Nat.not_lt_zero _)
  | cons y ys ih =>
    intro x
    by_cases hc : c (key x) (key y) = true
    · -- the accumulator survives the comparison with y
      obtain ⟨i', m, h1, h2, h3, h4⟩ := ih x
      rcases i' with _ | k
      · have hm : x = m := by simpa using h1
        subst hm
        refine ⟨0, x, rfl, ?_, ?_, ?_⟩
        · simp only [reduceLoop]
          rw [if_pos hc]
          exact h2
        · intro j z hj
          rcases j with _ | _ | j
          · simp only [List.getElem?_cons_zero, Option.some.injEq] at hj
            subst hj
            rcases htot (key x) (key x) with h | h <;> exact h
          · simp only [List.getElem?_cons_succ, List.getElem?_cons_zero,
              Option.some.injEq] at hj
            subst hj
            exact hc
          · simp only [List.getElem?_cons_succ] at hj
            exact h3 (j + 1) z (by simpa using hj)
        · intro j z hlt _
          exact absurd hlt (Nat.not_lt_zero _)
      · have h1' : ys[k]? = some m := by simpa using h1
        have hmx : c (key m) (key x) = true := h3 0 x (by simp)
        have hxm : c (key x) (key m) = false := h4 0 x (Nat.succ_pos k) (by simp)
        have hmy : c (key m) (key y) = true := htrans _ _ _ hmx hc
        have hym : c (key y) (key m) = false := by
          rw [Bool.eq_false_iff]
          intro h
          have hcontra := htrans _ _ _ hc h
          rw [hxm] at hcontra
          exact Bool.false_ne_true hcontra
        refine ⟨k + 2, m, by simpa using h1', ?_, ?_, ?_⟩
        · simp only [reduceLoop]
          rw [if_pos hc]
          exact h2
        · intro j z hj
          rcases j with _ | _ | j
          · simp only [List.getElem?_cons_zero, Option.some.injEq] at hj
            subst hj
            exact hmx
          · simp only [List.getElem?_cons_succ, List.getElem?_cons_zero,
              Option.some.injEq] at hj
            subst hj
            exact hmy
          · simp only [List.getElem?_cons_succ] at hj
            exact h3 (j + 1) z (by simpa using hj)
        · intro j z hlt hj
          rcases j with _ | _ | j
          · simp only [List.getElem?_cons_zero, Option.some.injEq] at hj
            subst hj
            exact hxm
          · simp only [List.getElem?_cons_succ, List.getElem?_cons_zero,
              Option.some.injEq] at hj
            subst hj
            exact hym
          · simp only [List.getElem?_cons_succ] at hj
            exact h4 (j + 1) z (by omega) (by simpa using hj)
    · -- y replaces the accumulator
      have hc' : c (key x) (key y) = false := Bool.eq_false_iff.mpr hc
      have hyx : c (key y) (key x) = true := by
        rcases htot (key x) (key y) with h | h
        · exact absurd h hc
        · exact h
      obtain ⟨i', m, h1, h2, h3, h4⟩ := ih y
      rcases i' with _ | k
      · have hm : y = m := by simpa using h1
        subst hm
        refine ⟨1, y, by simp, ?_, ?_, ?_⟩
        · simp only [reduceLoop]
          rw [if_neg hc]
          exact h2
        · intro j z hj
          rcases j with _ | _ | j
          · simp only [List.getElem?_cons_zero, Option.some.injEq] at hj
            subst hj
            exact hyx
          · simp only [List.getElem?_cons_succ, List.getElem?_cons_zero,
              Option.some.injEq] at hj
            subst hj
            rcases htot (key y) (key y) with h | h <;> exact h
          · simp only [List.getElem?_cons_succ] at hj
            exact h3 (j + 1) z (by simpa using hj)
        · intro j z hlt hj
          rcases j with _ | j
          · simp only [List.getElem?_cons_zero, Option.some.injEq] at hj
            subst hj
            exact hc'
          · exact absurd hlt (by omega)
      · have h1' : ys[k]? = some m := by simpa using h1
        have hmy : c (key m) (key y) = true := h3 0 y (by simp)
        have hym : c (key y) (key m) = false := h4 0 y (Nat.succ_pos k) (by simp)
        have hmx : c (key m) (key x) = true := htrans _ _ _ hmy hyx
        have hxm : c (key x) (key m) = false := by
          rw [Bool.eq_false_iff]
          intro h
          have hcontra := htrans _ _ _ hyx h
          rw [hym] at hcontra
          exact Bool.false_ne_true hcontra
        refine ⟨k + 2, m, by simpa using h1', ?_, ?_, ?_⟩
        · simp only [reduceLoop]
          rw [if_neg hc]
          exact h2
        · intro j z hj
          rcases j with _ | _ | j
          · simp only [List.getElem?_cons_zero, Option.some.injEq] at hj
            subst hj
            exact hmx
          · simp only [List.getElem?_cons_succ, List.getElem?_cons_zero,
              Option.some.injEq] at hj
            subst hj
            exact hmy
          · simp only [List.getElem?_cons_succ] at hj
            exact h3 (j + 1) z (by simpa using hj)
        · intro j z hlt hj
          rcases j with _ | _ | j
          · simp only [List.getElem?_cons_zero, Option.some.injEq] at hj
            subst hj
            exact hxm
          · simp only [List.getElem?_cons_succ, List.getElem?_cons_zero,
              Option.some.injEq] at hj
            subst hj
            exact hym
          · simp only [List.getElem?_cons_succ] at hj
            exact h4 (j + 1) z (by omega) (by simpa using hj)

/-- Claim C6: on a non-empty source, `min(key)` returns the
first-encountered element whose key is minimal and `max(key)` the
first-encountered element whose key is maximal — the element at index `i`
whose key bounds every element's key, with every earlier element's key
strictly worse (the left fold keeps the accumulator on ties); in particular
`min` with `key` = first component on `[(1,'a'), (1,'b')]` returns
`(1,'a')`. -/
theorem C6_min_max_tie_break {α γ : Type} [LinearOrder γ] (key : α → γ) (x : α)
    (xs : List α) :
    (∃ (i : Nat) (m : α), (x :: xs)[i]? = some m ∧
      Seq.min key ⟨.pyiter (x :: xs)⟩ = some m ∧
      (∀ (j : Nat) (y : α), (x :: xs)[j]? = some y → key m ≤ key y) ∧
      (∀ (j : Nat) (y : α), j < i → (x :: xs)[j]? = some y → key m < key y)) ∧
    (∃ (i : Nat) (m : α), (x :: xs)[i]? = some m ∧
      Seq.max key ⟨.pyiter (x :: xs)⟩ = some m ∧
      (∀ (j : Nat) (y : α), (x :: xs)[j]? = some y → key y ≤ key m) ∧
      (∀ (j : Nat) (y : α), j < i → (x :: xs)[j]? = some y → key y < key m)) ∧
    Seq.min Prod.fst (⟨.pyiter [((1 : Nat), 'a'), (1, 'b')]⟩ : Seq (Nat × Char)) =
      some (1, 'a') := by
  refine ⟨?_, ?_, by decide⟩
  · have htot : ∀ a b : γ, CmpOp.eval CmpOp.le a b = true ∨ CmpOp.eval CmpOp.le b a = true := by
      intro a b
      simp only [CmpOp.eval, decide_eq_true_eq]
      exact le_total a b
    have htrans : ∀ a b d : γ, CmpOp.eval CmpOp.le a b = true →
        CmpOp.eval CmpOp.le b d = true → CmpOp.eval CmpOp.le a d = true := by
      intro a b d
      simp only [CmpOp.eval, decide_eq_true_eq]
      exact le_trans
    obtain ⟨i, m, h1, h2, h3, h4⟩ := reduceChoose_first (CmpOp.eval CmpOp.le) htot htrans key xs x
    refine ⟨i, m, h1, ?_, ?_, ?_⟩
    · have hmin : Seq.min key (⟨.pyiter (x :: xs)⟩ : Seq α) =
          some (reduceLoop
            (fun lhs rhs => if CmpOp.eval CmpOp.le (key lhs) (key rhs) then lhs else rhs)
            x xs) := rfl
      rw [hmin, h2]
    · intro j y hj
      have := h3 j y hj
      simpa only [CmpOp.eval, decide_eq_true_eq] using this
    · intro j y hlt hj
      have := h4 j y hlt hj
      simp only [CmpOp.eval, decide_eq_false_iff_not] at this
      exact not_le.mp this
  · have htot : ∀ a b : γ, CmpOp.eval CmpOp.ge a b = true ∨ CmpOp.eval CmpOp.ge b a = true := by
      intro a b
      simp only [CmpOp.eval, decide_eq_true_eq]
      exact le_total b a
    have htrans : ∀ a b d : γ, CmpOp.eval CmpOp.ge a b = true →
        CmpOp.eval CmpOp.ge b d = true → CmpOp.eval CmpOp.ge a d = true := by
      intro a b d
      simp only [CmpOp.eval, decide_eq_true_eq]
      exact fun h1 h2 => le_trans h2 h1
    obtain ⟨i, m, h1, h2, h3, h4⟩ := reduceChoose_first (CmpOp.eval CmpOp.ge) htot htrans key xs x
    refine ⟨i, m, h1, ?_, ?_, ?_⟩
    · have hmax : Seq.max key (⟨.pyiter (x :: xs)⟩ : Seq α) =
          some (reduceLoop
            (fun lhs rhs => if CmpOp.eval CmpOp.ge (key lhs) (key rhs) then lhs else rhs)
            x xs) := rfl
      rw [hmax, h2]
    · intro j y hj
      have := h3 j y hj
      simpa only [CmpOp.eval, decide_eq_true_eq] using this
    · intro j y hlt hj
      have := h4 j y hlt hj
      simp only [CmpOp.eval, decide_eq_false_iff_not] at this
      exact not_le.mp this

/-- `any` returns `True` after pulling exactly `i + 1` elements when the
`i`-th element is the first satisfying one, for every fuel above `i`. -/
theorem anyPulls_short_circuit {α : Type} (p : α → Bool) :
    ∀ (i : Nat) (s : Nat → α), p (s i) = true → (∀ a, a < i → p (s a) = false) →
      ∀ fuel, i < fuel → Seq.anyPulls p s fuel = some (true, i + 1) := by
  intro i
  induction i with
  | zero =>
    intro s hp _ fuel hfuel
    rcases fuel with _ | fuel
    · omega
    · simp only [Seq.anyPulls]
      rw [if_pos hp]
  | succ i ih =>
    intro s hp hmin fuel hfuel
    rcases fuel with _ | fuel
    · omega
    · have h0 : p (s 0) = false := hmin 0 (Nat.succ_pos i)
      have hrec := ih (fun a => s (a + 1)) hp
        (fun a ha => hmin (a + 1) (by omega)) fuel (by omega)
      simp only [Seq.anyPulls]
      rw [if_neg (by simp [h0]), hrec]

/-- `all` returns `False` after pulling exactly `j + 1` elements when the
`j`-th element is the first failing one, for every fuel above `j`. -/
theorem allPulls_short_circuit {α : Type} (q : α → Bool) :
    ∀ (j : Nat) (t : Nat → α), q (t j) = false → (∀ a, a < j → q (t a) = true) →
      ∀ fuel, j < fuel → Seq.allPulls q t fuel = some (false, j + 1) := by
  intro j
  induction j with
  | zero =>
    intro t hq _ fuel hfuel
    rcases fuel with _ | fuel
    · omega
    · simp only [Seq.allPulls]
      rw [if_neg (by simp [hq])]
  | succ j ih =>
    intro t hq hmin fuel hfuel
    rcases fuel with _ | fuel
    · omega
    · have h0 : q (t 0) = true := hmin 0 (Nat.succ_pos j)
      have hrec := ih (fun a => t (a + 1)) hq
        (fun a ha => hmin (a + 1) (by omega)) fuel (by omega)
      simp only [Seq.allPulls]
      rw [if_pos h0, hrec]

/-- Claim C8: the short-circuiting terminals stop pulling as soon as their
result is determined, on every (possibly infinite) source: when the `i`-th
element is the first satisfying `p`, `any(p)` returns `True` having pulled
exactly `i + 1` elements (none past the satisfying one) for every sufficient
fuel — in particular fuel `i + 1` already suffices, so the terminal
terminates on an infinite source; dually `all(q)` pulls exactly `j + 1`
elements when the `j`-th element is the first failing `q`; and `first()`
pulls exactly one element. -/
theorem C8_short_circuit_terminals {α : Type} (p q : α → Bool) (s t : Nat → α)
    (i j : Nat) (hpi : p (s i) = true) (hpmin : ∀ a, a < i → p (s a) = false)
    (hqj : q (t j) = false) (hqmin : ∀ a, a < j → q (t a) = true) :
    (∀ fuel, i < fuel → Seq.anyPulls p s fuel = some (true, i + 1)) ∧
    (∀ fuel, j < fuel → Seq.allPulls q t fuel = some (false, j + 1)) ∧
    (∀ u : Nat → α, Seq.firstPulls u = (u 0, 1)) :=
  ⟨fun fuel hf => anyPulls_short_circuit p i s hpi hpmin fuel hf,
   fun fuel hf => allPulls_short_circuit q j t hqj hqmin fuel hf,
   fun _ => rfl⟩

/-- Claim C8, witness: on the infinite source `0, 1, 2, ...`, `any(== 2)`
returns `True` pulling exactly 3 elements and `all(< 2)` returns `False`
pulling exactly 3 elements, for every sufficient fuel. -/
theorem C8_short_circuit_terminals_witness :
    (∀ fuel, 2 < fuel →
      Seq.anyPulls (fun n : Nat => n == 2) id fuel = some (true, 3)) ∧
    (∀ fuel, 2 < fuel →
      Seq.allPulls (fun n : Nat => decide (n < 2)) id fuel = some (false, 3)) ∧
    (∀ u : Nat → Nat, Seq.firstPulls u = (u 0, 1)) :=
  C8_short_circuit_terminals (fun n : Nat => n == 2) (fun n : Nat => decide (n < 2))
    id id 2 2 (by decide) (by decide) (by decide) (by decide)

end SeqModel


